import Mathlib

/-!
Verification of the ZarzCLI four-number calculator (src/calculator.py).

The program is embedded shallowly:

* Python floats are modelled as exact rational values (`PyFloat`), together
  with a negative-zero flag so that the IEEE value -0.0 is representable;
  Python numeric equality `==`/`!=` compares the rational value only, which
  is exactly how `-0.0 == 0` holds in Python.
* A value that may be either a float or a string (the division-by-zero
  error marker) is `PyVal`.
* Python exceptions are modelled by `Except PyExc`; the `try/except
  ValueError` block of `main` catches exactly `PyExc.valueError`.
* Console interaction is modelled by a state `IOState` carrying the list of
  still-unread stdin lines and the list of lines printed so far (prompts
  passed to `input()` are recorded as output, as they are written to
  stdout).  Reading past the end of the input raises `PyExc.eofError`,
  which is what `input()` does at end of stream.
* The unbounded `while True` session loop of the `__main__` block is given
  an explicit fuel parameter; the fuel is an artifact of the embedding and
  is proved irrelevant once it exceeds the number of input lines.
-/

namespace Calculator

/-- Python exceptions relevant to this program. -/
inductive PyExc
  | valueError
  | typeError
  | eofError
  | indexError
  | fuelOut
deriving DecidableEq

/-- Model of a Python float: an exact rational value plus a flag recording
whether it is the IEEE value -0.0 (the flag is only ever set when `val = 0`).
Python `==` on floats compares numeric values, so the flag never takes part
in comparisons; it only records the representation. -/
structure PyFloat where
  val : ℚ
  negZero : Bool
deriving DecidableEq

/-- An ordinary (non-negative-zero) float of the given value. -/
def pf (q : ℚ) : PyFloat := ⟨q, false⟩

/-- A Python value that is either a float or a string; the running result
`hasil` of the fold has this type because `bagi` can return a string. -/
inductive PyVal
  | float (f : PyFloat)
  | str (s : String)
deriving DecidableEq

/-- The textual error marker returned by `bagi` on a zero divisor
(source line 16). -/
def errDiv : String := "Error: Tidak bisa dibagi dengan 0"

/-- Source lines 3-4: `def tambah(a, b): return a + b`.  In the program the
second argument is always one of the input floats; the first is the running
result, which can be the error-marker string, in which case Python raises
an uncaught TypeError. -/
def tambah : PyVal → PyFloat → Except PyExc PyVal
  | .float a, b => .ok (.float (pf (a.val + b.val)))
  | .str _, _ => .error .typeError

/-- Source lines 6-7: `def kurang(a, b): return a - b`. -/
def kurang : PyVal → PyFloat → Except PyExc PyVal
  | .float a, b => .ok (.float (pf (a.val - b.val)))
  | .str _, _ => .error .typeError

/-- Source lines 9-10: `def kali(a, b): return a * b`; multiplying a string
by a float also raises TypeError in Python. -/
def kali : PyVal → PyFloat → Except PyExc PyVal
  | .float a, b => .ok (.float (pf (a.val * b.val)))
  | .str _, _ => .error .typeError

/-- Source lines 12-16: `def bagi(a, b)`; the divisor test `b != 0` is
numeric inequality on the value, so it ignores the sign of a zero.  When the
divisor is nonzero and the dividend is the error string, `a / b` raises
TypeError. -/
def bagi (a : PyVal) (b : PyFloat) : Except PyExc PyVal :=
  if b.val ≠ 0 then
    match a with
    | .float x => .ok (.float (pf (x.val / b.val)))
    | .str _ => .error .typeError
  else .ok (.str errDiv)

/-- Source lines 40-47: the body of the computation loop dispatches on the
operator symbol; no branch matches an invalid symbol, leaving `hasil`
unchanged (unreachable in `main` because operators are validated). -/
def applyOp (op : String) (hasil : PyVal) (n : PyFloat) : Except PyExc PyVal :=
  if op = "+" then tambah hasil n
  else if op = "-" then kurang hasil n
  else if op = "*" then kali hasil n
  else if op = "/" then bagi hasil n
  else .ok hasil

/-- Source lines 39-47: `for i in range(3): hasil = <dispatch>`; a raised
exception aborts the loop (and the surrounding function). -/
def hitungLoop : PyVal → List String → List PyFloat → Except PyExc PyVal
  | h, [], _ => .ok h
  | h, op :: ops, n :: ns =>
      match applyOp op h n with
      | .ok h₂ => hitungLoop h₂ ops ns
      | .error e => .error e
  | _, _ :: _, [] => .error .indexError

/-- Source lines 38-47: `hasil = nums[0]` followed by the loop over the
three operators, consuming `nums[1..3]`.  Indexing an empty list raises
IndexError (unreachable in `main`). -/
def hitung (nums : List PyFloat) (ops : List String) : Except PyExc PyVal :=
  match nums with
  | [] => .error .indexError
  | n₀ :: rest => hitungLoop (.float n₀) ops rest

/-- Follows the spec's words (section 4.3): the specification's `apply`
dispatches an operator symbol to the matching arithmetic primitive on
numbers.  This is the spec-side definition used to state the left-fold
refinement claim; it is compared against the code-side `hitung`. -/
def applySpec (op : String) (a b : ℚ) : ℚ :=
  if op = "+" then a + b
  else if op = "-" then a - b
  else if op = "*" then a * b
  else if op = "/" then a / b
  else a

/-- Numeric value of a list of decimal digit characters. -/
def digitsVal (l : List Char) : ℕ := l.foldl (fun a c => 10 * a + (c.toNat - 48)) 0

/-- Splits off the leading run of decimal digits. -/
def takeDigits : List Char → List Char × List Char
  | [] => ([], [])
  | c :: rest =>
      if c.isDigit then
        let p := takeDigits rest
        (c :: p.1, p.2)
      else ([], c :: rest)

/-- Modelled from the builtin: the unsigned part of Python's `float(str)`
parser, restricted to the fixed-point decimal numerals this calculator is
specified over (digits with an optional decimal point and at least one
digit); anything else raises ValueError, modelled as `none`. -/
def parseFloatChars (l : List Char) : Option ℚ :=
  let ip := takeDigits l
  match ip.2 with
  | [] => if ip.1.isEmpty then none else some (digitsVal ip.1)
  | '.' :: r₂ =>
      let fp := takeDigits r₂
      if fp.2.isEmpty && !(ip.1.isEmpty && fp.1.isEmpty) then
        some ((digitsVal ip.1 : ℚ) + (digitsVal fp.1 : ℚ) / (10 : ℚ) ^ fp.1.length)
      else none
  | _ => none

/-- Leading and trailing whitespace removal, as `float(str)` performs. -/
def trimChars (l : List Char) : List Char :=
  ((l.dropWhile Char.isWhitespace).reverse.dropWhile Char.isWhitespace).reverse

/-- Modelled from the builtin: Python's `float(str)` conversion used at
source line 24, on the numeral forms above with an optional sign.  A parsed
`-0.0` (or `-0`, `-.0`, ...) is the IEEE negative zero, recorded by the
`negZero` flag. -/
def parseFloat (s : String) : Option PyFloat :=
  match trimChars s.data with
  | '-' :: rest => (parseFloatChars rest).map (fun q => ⟨-q, decide (q = 0)⟩)
  | '+' :: rest => (parseFloatChars rest).map pf
  | l => (parseFloatChars l).map pf

/-- Console state: unread stdin lines and the stdout lines so far. -/
structure IOState where
  input : List String
  output : List String
deriving DecidableEq

/-- Model of `input(prompt)`: prints the prompt, then reads one line;
raises EOFError at end of input. -/
def readLine (prompt : String) (s : IOState) : Except PyExc String × IOState :=
  match s.input with
  | [] => (.error .eofError, ⟨[], s.output ++ [prompt]⟩)
  | l :: rest => (.ok l, ⟨rest, s.output ++ [prompt]⟩)

/-- Prompt printed for the (i+1)-st operand (source line 24). -/
def numPrompt (i : ℕ) : String := "Masukkan angka ke-" ++ toString (i + 1) ++ ": "

/-- Prompt printed for the (i+1)-st operator (source lines 31 and 34). -/
def opPrompt (i : ℕ) : String :=
  "Masukkan operator ke-" ++ toString (i + 1) ++ " (+, -, *, /): "

/-- Warning printed for an invalid operator symbol (source line 33). -/
def opWarn : String := "Operator tidak valid! Masukkan +, -, atau /"

/-- Message printed by the `except ValueError` handler (source line 54). -/
def errNum : String := "Error: Masukkan angka yang valid!"

/-- Banner printed on entry to `main` (source line 19). -/
def banner : String := "=== Kalkulator 4 Angka ==="

/-- The fixed operator symbol set of source line 32. -/
def validOps : List String := ["+", "-", "*", "/"]

/-- Source lines 23-26: reads `k` operand lines starting at index `i`,
converting each with `float(...)`; a line that does not parse raises
ValueError immediately. -/
def readNums : ℕ → ℕ → IOState → Except PyExc (List PyFloat) × IOState
  | 0, _, s => (.ok [], s)
  | k + 1, i, s =>
      match readLine (numPrompt i) s with
      | (.error e, s₁) => (.error e, s₁)
      | (.ok l, s₁) =>
          match parseFloat l with
          | none => (.error .valueError, s₁)
          | some f =>
              match readNums k (i + 1) s₁ with
              | (.ok fs, s₂) => (.ok (f :: fs), s₂)
              | (.error e, s₂) => (.error e, s₂)

/-- Source lines 31-34: the blocking retry loop for one operator; each
iteration prints the prompt, reads a line, and either accepts a member of
`validOps` or prints the warning and retries. -/
def readOpLoopAux (i : ℕ) : List String → List String → Except PyExc String × IOState
  | [], out => (.error .eofError, ⟨[], out ++ [opPrompt i]⟩)
  | l :: rest, out =>
      if l ∈ validOps then (.ok l, ⟨rest, out ++ [opPrompt i]⟩)
      else readOpLoopAux i rest (out ++ [opPrompt i, opWarn])

/-- The operator retry loop, on an `IOState`. -/
def readOpLoop (i : ℕ) (s : IOState) : Except PyExc String × IOState :=
  readOpLoopAux i s.input s.output

/-- Source lines 29-35: collects `k` validated operators starting at
index `i`. -/
def readOps : ℕ → ℕ → IOState → Except PyExc (List String) × IOState
  | 0, _, s => (.ok [], s)
  | k + 1, i, s =>
      match readOpLoop i s with
      | (.error e, s₁) => (.error e, s₁)
      | (.ok op, s₁) =>
          match readOps k (i + 1) s₁ with
          | (.ok ops, s₂) => (.ok (op :: ops), s₂)
          | (.error e, s₂) => (.error e, s₂)

/-- Models Python's textual rendering of a float.  No claim inspects the
digits of a rendered number (only whole lines such as the error marker), so
the exact digit format is immaterial; the exact rational value is
rendered. -/
def showFloat (f : PyFloat) : String :=
  if f.val.den = 1 then toString f.val.num ++ ".0"
  else toString f.val.num ++ "/" ++ toString f.val.den

/-- Rendering of the running result in the `Hasil:` line: a float renders
as a number, the error marker renders as itself. -/
def showHasil : PyVal → String
  | .float f => showFloat f
  | .str s => s

/-- Source line 50: the reconstructed-expression line. -/
def exprLine (n₀ n₁ n₂ n₃ : PyFloat) (o₀ o₁ o₂ : String) : String :=
  "\nPerhitungan: " ++ showFloat n₀ ++ " " ++ o₀ ++ " " ++ showFloat n₁ ++ " " ++ o₁
    ++ " " ++ showFloat n₂ ++ " " ++ o₂ ++ " " ++ showFloat n₃

/-- Source lines 21-51: the body of the `try` block of `main`: read four
operands, read three operators, fold, then print the expression and the
result. -/
def mainBody (s : IOState) : Except PyExc Unit × IOState :=
  match readNums 4 0 s with
  | (.error e, s₁) => (.error e, s₁)
  | (.ok nums, s₁) =>
      match readOps 3 0 s₁ with
      | (.error e, s₂) => (.error e, s₂)
      | (.ok ops, s₂) =>
          match nums, ops with
          | [n₀, n₁, n₂, n₃], [o₀, o₁, o₂] =>
              match hitung [n₀, n₁, n₂, n₃] [o₀, o₁, o₂] with
              | .error e => (.error e, s₂)
              | .ok hasil =>
                  (.ok (), ⟨s₂.input,
                    s₂.output ++ [exprLine n₀ n₁ n₂ n₃ o₀ o₁ o₂,
                      "Hasil: " ++ showHasil hasil]⟩)
          | _, _ => (.error .indexError, s₂)

/-- Source lines 18-54: `main` prints the banner, runs the body, and
catches exactly ValueError, printing the invalid-number message; every
other exception propagates. -/
def main (s : IOState) : Except PyExc Unit × IOState :=
  match mainBody ⟨s.input, s.output ++ [banner]⟩ with
  | (.ok _, s₁) => (.ok (), s₁)
  | (.error .valueError, s₁) => (.ok (), ⟨s₁.input, s₁.output ++ [errNum]⟩)
  | (.error e, s₁) => (.error e, s₁)

/-- The repeat prompt of source line 59. -/
def lagiPrompt : String := "\nHitung lagi? (y/n): "

/-- The closing message of source line 62. -/
def thanks : String := "Terima kasih!"

/-- Model of Python's `str.lower()` used at source line 60. -/
def lowerStr (s : String) : String := ⟨s.data.map Char.toLower⟩

/-- Source lines 58-61: the `while True` session loop; after each normal
run of `main` the repeat prompt is read and the loop continues exactly when
the lowercased answer is the single letter y.  The fuel argument is an
embedding artifact (proved irrelevant when it exceeds the number of input
lines); running out of fuel is the distinguished `fuelOut` outcome, which a
real run never reaches. -/
def sessionLoop : ℕ → IOState → Except PyExc Unit × IOState
  | 0, s => (.error .fuelOut, s)
  | fuel + 1, s =>
      match main s with
      | (.error e, s₁) => (.error e, s₁)
      | (.ok _, s₁) =>
          match readLine lagiPrompt s₁ with
          | (.error e, s₂) => (.error e, s₂)
          | (.ok lagi, s₂) =>
              if lowerStr lagi ≠ "y" then (.ok (), s₂)
              else sessionLoop fuel s₂

/-- Source lines 57-62: the whole `__main__` block; on normal loop exit the
closing message is printed. -/
def runCalc (fuel : ℕ) (s : IOState) : Except PyExc Unit × IOState :=
  match sessionLoop fuel s with
  | (.ok _, s₁) => (.ok (), ⟨s₁.input, s₁.output ++ [thanks]⟩)
  | (.error e, s₁) => (.error e, s₁)

/-- The program as a function of its standard-input lines. -/
def program (fuel : ℕ) (input : List String) : Except PyExc Unit × IOState :=
  runCalc fuel ⟨input, []⟩

/-- The operand prompts printed by `readNums` starting at index `i` for `k`
successful reads. -/
def numPrompts : ℕ → ℕ → List String
  | _, 0 => []
  | i, k + 1 => numPrompt i :: numPrompts (i + 1) k

/-- The stdout lines the retry loop for operator `i` emits while rejecting
the given invalid lines and then accepting a valid one. -/
def opOut (i : ℕ) (junk : List String) : List String :=
  junk.foldr (fun _ acc => opPrompt i :: opWarn :: acc) [opPrompt i]

theorem applyOp_num (op : String) (hop : op ∈ validOps) (a b : ℚ) (hz : op = "/" → b ≠ 0) :
    applyOp op (.float (pf a)) (pf b) = .ok (.float (pf (applySpec op a b))) := by
  simp only [validOps, List.mem_cons, List.mem_singleton, List.not_mem_nil, or_false] at hop
  rcases hop with rfl | rfl | rfl | rfl
  · simp [applyOp, tambah, applySpec, pf]
  · simp [applyOp, kurang, applySpec, pf]
  · simp [applyOp, kali, applySpec, pf]
  · simp [applyOp, bagi, applySpec, pf, hz rfl]

theorem readOpLoopAux_mem :
    ∀ (inp out : List String) (i : ℕ) (op : String) (s₂ : IOState),
      readOpLoopAux i inp out = (.ok op, s₂) → op ∈ validOps := by
  intro inp
  induction inp with
  | nil => intro out i op s₂ h; simp [readOpLoopAux] at h
  | cons l rest ih =>
      intro out i op s₂ h
      by_cases hm : l ∈ validOps
      · rw [readOpLoopAux, if_pos hm] at h
        injection h with h₁ h₂
        injection h₁ with h₁
        subst h₁
        exact hm
      · rw [readOpLoopAux, if_neg hm] at h
        exact ih _ _ _ _ h

theorem readOps_mem :
    ∀ (k i : ℕ) (s : IOState) (ops : List String) (s₂ : IOState),
      readOps k i s = (.ok ops, s₂) → ∀ op ∈ ops, op ∈ validOps := by
  intro k
  induction k with
  | zero =>
      intro i s ops s₂ h
      rw [readOps] at h
      injection h with h₁ h₂
      injection h₁ with h₁
      subst h₁
      simp
  | succ k ih =>
      intro i s ops s₂ h
      rw [readOps] at h
      split at h
      next e s₁ heq => simp at h
      next op s₁ heq =>
        split at h
        next ops₂ s₃ heq₂ =>
          injection h with h₁ h₂
          injection h₁ with h₁
          subst h₁
          intro o ho
          rcases List.mem_cons.mp ho with rfl | hmem
          · exact readOpLoopAux_mem _ _ _ _ _ heq
          · exact ih _ _ _ _ heq₂ o hmem
        next e s₃ heq₂ => simp at h

theorem readOpLoopAux_spec :
    ∀ (junk : List String) (i : ℕ) (op : String) (rest out : List String),
      (∀ l ∈ junk, l ∉ validOps) → op ∈ validOps →
      readOpLoopAux i (junk ++ op :: rest) out =
        (.ok op, ⟨rest, out ++ opOut i junk⟩) := by
  intro junk
  induction junk with
  | nil =>
      intro i op rest out hj hop
      simp [readOpLoopAux, hop, opOut]
  | cons j js ih =>
      intro i op rest out hj hop
      have hjn : j ∉ validOps := hj j (List.mem_cons_self j js)
      rw [List.cons_append, readOpLoopAux, if_neg hjn]
      rw [ih i op rest _ (fun l hl => hj l (List.mem_cons_of_mem j hl)) hop]
      simp [opOut]

theorem readNums_spec :
    ∀ (ls : List String) (fs : List PyFloat),
      List.Forall₂ (fun l f => parseFloat l = some f) ls fs →
      ∀ (i : ℕ) (rest out : List String),
      readNums ls.length i ⟨ls ++ rest, out⟩ =
        (.ok fs, ⟨rest, out ++ numPrompts i ls.length⟩) := by
  intro ls fs h
  induction h with
  | nil => intro i rest out; simp [readNums, numPrompts]
  | @cons l f ls₂ fs₂ hpf hrest ih =>
      intro i rest out
      rw [List.length_cons, readNums]
      simp only [List.cons_append, readLine, hpf]
      rw [ih (i + 1) rest (out ++ [numPrompt i])]
      simp [numPrompts]

theorem readNums_fail :
    ∀ (ls : List String) (fs : List PyFloat),
      List.Forall₂ (fun l f => parseFloat l = some f) ls fs →
      ∀ (bad : String), parseFloat bad = none →
      ∀ (k i : ℕ), ls.length < k →
      ∀ (rest out : List String),
      readNums k i ⟨ls ++ bad :: rest, out⟩ =
        (.error .valueError, ⟨rest, out ++ numPrompts i (ls.length + 1)⟩) := by
  intro ls fs h
  induction h with
  | nil =>
      intro bad hbad k i hk rest out
      obtain ⟨k, rfl⟩ : ∃ m, k = m + 1 := ⟨k - 1, by omega⟩
      simp [readNums, readLine, hbad, numPrompts]
  | @cons l f ls₂ fs₂ hpf hrest ih =>
      intro bad hbad k i hk rest out
      obtain ⟨k, rfl⟩ : ∃ m, k = m + 1 := ⟨k - 1, by omega⟩
      rw [readNums]
      simp only [List.cons_append, readLine, hpf]
      rw [ih bad hbad k (i + 1) (by simpa using hk) rest (out ++ [numPrompt i])]
      simp [numPrompts]

theorem readOps_succ (k i : ℕ) (junk : List String) (op : String) (rest out : List String)
    (hj : ∀ l ∈ junk, l ∉ validOps) (hop : op ∈ validOps) :
    readOps (k + 1) i ⟨junk ++ op :: rest, out⟩ =
      (match readOps k (i + 1) ⟨rest, out ++ opOut i junk⟩ with
       | (.ok ops, s₂) => (.ok (op :: ops), s₂)
       | (.error e, s₂) => (.error e, s₂)) := by
  rw [readOps, readOpLoop]
  simp only [readOpLoopAux_spec junk i op rest out hj hop]

theorem readOps3_spec (j₀ j₁ j₂ : List String) (o₀ o₁ o₂ : String) (rest out : List String)
    (hj₀ : ∀ l ∈ j₀, l ∉ validOps) (hj₁ : ∀ l ∈ j₁, l ∉ validOps)
    (hj₂ : ∀ l ∈ j₂, l ∉ validOps)
    (ho₀ : o₀ ∈ validOps) (ho₁ : o₁ ∈ validOps) (ho₂ : o₂ ∈ validOps) :
    readOps 3 0 ⟨j₀ ++ o₀ :: (j₁ ++ o₁ :: (j₂ ++ o₂ :: rest)), out⟩ =
      (.ok [o₀, o₁, o₂],
        ⟨rest, out ++ opOut 0 j₀ ++ opOut 1 j₁ ++ opOut 2 j₂⟩) := by
  have h₂ : readOps 1 2 ⟨j₂ ++ o₂ :: rest, out ++ opOut 0 j₀ ++ opOut 1 j₁⟩ =
      (.ok [o₂], ⟨rest, out ++ opOut 0 j₀ ++ opOut 1 j₁ ++ opOut 2 j₂⟩) := by
    rw [show (1 : ℕ) = 0 + 1 from rfl, readOps_succ 0 2 j₂ o₂ rest _ hj₂ ho₂]
    rw [readOps]
  have h₁ : readOps 2 1 ⟨j₁ ++ o₁ :: (j₂ ++ o₂ :: rest), out ++ opOut 0 j₀⟩ =
      (.ok [o₁, o₂], ⟨rest, out ++ opOut 0 j₀ ++ opOut 1 j₁ ++ opOut 2 j₂⟩) := by
    rw [show (2 : ℕ) = 1 + 1 from rfl, readOps_succ 1 1 j₁ o₁ _ _ hj₁ ho₁, h₂]
  rw [show (3 : ℕ) = 2 + 1 from rfl, readOps_succ 2 0 j₀ o₀ _ _ hj₀ ho₀, h₁]

theorem forall₂_parse :
    ∀ (pre : List String), (∀ l ∈ pre, (parseFloat l).isSome = true) →
      List.Forall₂ (fun l f => parseFloat l = some f) pre (pre.filterMap parseFloat) := by
  intro pre
  induction pre with
  | nil => intro h; simp
  | cons l ls ih =>
      intro h
      obtain ⟨f, hf⟩ := Option.isSome_iff_exists.mp (h l (List.mem_cons_self l ls))
      simp only [List.filterMap_cons, hf]
      exact .cons hf (ih fun x hx => h x (List.mem_cons_of_mem _ hx))

theorem main_ok_spec (l₁ l₂ l₃ l₄ : String) (f₁ f₂ f₃ f₄ : PyFloat)
    (h₁ : parseFloat l₁ = some f₁) (h₂ : parseFloat l₂ = some f₂)
    (h₃ : parseFloat l₃ = some f₃) (h₄ : parseFloat l₄ = some f₄)
    (j₀ j₁ j₂ : List String) (o₀ o₁ o₂ : String)
    (hj₀ : ∀ l ∈ j₀, l ∉ validOps) (hj₁ : ∀ l ∈ j₁, l ∉ validOps)
    (hj₂ : ∀ l ∈ j₂, l ∉ validOps)
    (ho₀ : o₀ ∈ validOps) (ho₁ : o₁ ∈ validOps) (ho₂ : o₂ ∈ validOps)
    (v : PyVal) (hv : hitung [f₁, f₂, f₃, f₄] [o₀, o₁, o₂] = .ok v)
    (rest out : List String) :
    main ⟨l₁ :: l₂ :: l₃ :: l₄ :: (j₀ ++ o₀ :: (j₁ ++ o₁ :: (j₂ ++ o₂ :: rest))), out⟩ =
      (.ok (), ⟨rest,
        out ++ [banner] ++ numPrompts 0 4 ++ opOut 0 j₀ ++ opOut 1 j₁ ++ opOut 2 j₂
          ++ [exprLine f₁ f₂ f₃ f₄ o₀ o₁ o₂, "Hasil: " ++ showHasil v]⟩) := by
  rw [main, mainBody]
  have hn := readNums_spec [l₁, l₂, l₃, l₄] [f₁, f₂, f₃, f₄]
    (.cons h₁ (.cons h₂ (.cons h₃ (.cons h₄ .nil)))) 0
    (j₀ ++ o₀ :: (j₁ ++ o₁ :: (j₂ ++ o₂ :: rest))) (out ++ [banner])
  simp only [List.length_cons, List.length_nil, List.cons_append, List.nil_append] at hn
  rw [hn]
  dsimp only
  rw [readOps3_spec j₀ j₁ j₂ o₀ o₁ o₂ rest _ hj₀ hj₁ hj₂ ho₀ ho₁ ho₂]
  dsimp only
  rw [hv]

theorem main_fail_spec (pre : List String) (fs : List PyFloat)
    (hpre : List.Forall₂ (fun l f => parseFloat l = some f) pre fs)
    (bad : String) (hbad : parseFloat bad = none) (hlen : pre.length < 4)
    (rest out : List String) :
    main ⟨pre ++ bad :: rest, out⟩ =
      (.ok (), ⟨rest, out ++ [banner] ++ numPrompts 0 (pre.length + 1) ++ [errNum]⟩) := by
  rw [main, mainBody]
  rw [readNums_fail pre fs hpre bad hbad 4 0 hlen rest (out ++ [banner])]

theorem readNums_input_le :
    ∀ (k i : ℕ) (s : IOState), ((readNums k i s).2).input.length ≤ s.input.length := by
  intro k
  induction k with
  | zero => intro i s; simp [readNums]
  | succ k ih =>
      intro i s
      obtain ⟨inp, out⟩ := s
      cases inp with
      | nil => simp [readNums, readLine]
      | cons l rest =>
          rw [readNums]
          cases hp : parseFloat l with
          | none => simp [readLine, hp]
          | some f =>
              have h := ih (i + 1) ⟨rest, out ++ [numPrompt i]⟩
              rcases hr : readNums k (i + 1) ⟨rest, out ++ [numPrompt i]⟩ with ⟨r, s₂⟩
              rw [hr] at h
              cases r <;> simp [readLine, hp, hr] <;> dsimp only at h <;> omega

theorem readOpLoopAux_input_le :
    ∀ (inp out : List String) (i : ℕ),
      ((readOpLoopAux i inp out).2).input.length ≤ inp.length := by
  intro inp
  induction inp with
  | nil => intro out i; simp [readOpLoopAux]
  | cons l rest ih =>
      intro out i
      by_cases hm : l ∈ validOps
      · rw [readOpLoopAux, if_pos hm]; simp
      · rw [readOpLoopAux, if_neg hm]
        exact le_trans (ih _ _) (by simp)

theorem readOps_input_le :
    ∀ (k i : ℕ) (s : IOState), ((readOps k i s).2).input.length ≤ s.input.length := by
  intro k
  induction k with
  | zero => intro i s; simp [readOps]
  | succ k ih =>
      intro i s
      rw [readOps]
      have h₁ : ((readOpLoop i s).2).input.length ≤ s.input.length := by
        rw [readOpLoop]
        exact readOpLoopAux_input_le s.input s.output i
      rcases ho : readOpLoop i s with ⟨r₁, s₁⟩
      rw [ho] at h₁
      dsimp only at h₁
      cases r₁ with
      | error e => dsimp only; omega
      | ok op =>
          dsimp only
          have h₂ := ih (i + 1) s₁
          rcases hr : readOps k (i + 1) s₁ with ⟨r₂, s₂⟩
          rw [hr] at h₂
          dsimp only at h₂
          cases r₂ <;> dsimp only <;> omega

theorem mainBody_input_le (s : IOState) :
    ((mainBody s).2).input.length ≤ s.input.length := by
  rw [mainBody]
  have h₁ := readNums_input_le 4 0 s
  rcases hn : readNums 4 0 s with ⟨rn, s₁⟩
  rw [hn] at h₁
  dsimp only at h₁
  cases rn with
  | error e => dsimp only; omega
  | ok nums =>
      dsimp only
      have h₂ := readOps_input_le 3 0 s₁
      rcases ho : readOps 3 0 s₁ with ⟨ro, s₂⟩
      rw [ho] at h₂
      dsimp only at h₂
      cases ro with
      | error e => dsimp only; omega
      | ok ops =>
          dsimp only
          split
          · split
            · dsimp only; omega
            · dsimp only; omega
          · dsimp only; omega

theorem main_input_le (s : IOState) : ((main s).2).input.length ≤ s.input.length := by
  rw [main]
  have h := mainBody_input_le ⟨s.input, s.output ++ [banner]⟩
  rcases hm : mainBody ⟨s.input, s.output ++ [banner]⟩ with ⟨r, s₁⟩
  rw [hm] at h
  dsimp only at h
  cases r with
  | ok u => simpa using h
  | error e => cases e <;> simpa using h

theorem sessionLoop_fuel :
    ∀ (f₁ f₂ : ℕ) (s : IOState), s.input.length < f₁ → s.input.length < f₂ →
      sessionLoop f₁ s = sessionLoop f₂ s := by
  intro f₁
  induction f₁ with
  | zero => intro f₂ s h₁ h₂; omega
  | succ a ih =>
      intro f₂ s h₁ h₂
      obtain ⟨b, rfl⟩ : ∃ m, f₂ = m + 1 := ⟨f₂ - 1, by omega⟩
      rw [sessionLoop, sessionLoop]
      have hm := main_input_le s
      rcases hmain : main s with ⟨r, s₁⟩
      rw [hmain] at hm
      dsimp only at hm
      cases r with
      | error e => rfl
      | ok u =>
          dsimp only
          obtain ⟨inp₁, out₁⟩ := s₁
          cases inp₁ with
          | nil => rfl
          | cons lagi rest =>
              dsimp only [readLine]
              by_cases hy : lowerStr lagi ≠ "y"
              · rw [if_pos hy, if_pos hy]
              · rw [if_neg hy, if_neg hy]
                apply ih b ⟨rest, out₁ ++ [lagiPrompt]⟩ <;> dsimp only <;>
                  simp only [List.length_cons] at hm <;> omega

/-- Claim C1: for every four rational operands and three operators from the
valid set, the computed result of `hitung` equals the strict left fold of the
spec-side `applySpec` (no operator-precedence reordering), here stated for
the runs in which no intermediate division by zero occurs (so the result is
a number); in particular evaluating operands 2, 3, 4, 5 with operators
+, *, - gives 15, and operands 1, 1, 1, 1 with +, +, + give 4. -/
theorem c1_left_fold (n₀ n₁ n₂ n₃ : ℚ) (o₀ o₁ o₂ : String)
    (h₀ : o₀ ∈ validOps) (h₁ : o₁ ∈ validOps) (h₂ : o₂ ∈ validOps)
    (hz₀ : o₀ = "/" → n₁ ≠ 0) (hz₁ : o₁ = "/" → n₂ ≠ 0) (hz₂ : o₂ = "/" → n₃ ≠ 0) :
    hitung [pf n₀, pf n₁, pf n₂, pf n₃] [o₀, o₁, o₂] =
      .ok (.float (pf (applySpec o₂ (applySpec o₁ (applySpec o₀ n₀ n₁) n₂) n₃))) ∧
    hitung [pf 2, pf 3, pf 4, pf 5] ["+", "*", "-"] = .ok (.float (pf 15)) ∧
    hitung [pf 1, pf 1, pf 1, pf 1] ["+", "+", "+"] = .ok (.float (pf 4)) := by
  refine ⟨?_, ?_, ?_⟩
  · show hitungLoop (.float (pf n₀)) [o₀, o₁, o₂] [pf n₁, pf n₂, pf n₃] = _
    rw [hitungLoop, applyOp_num o₀ h₀ n₀ n₁ hz₀]
    dsimp only
    rw [hitungLoop, applyOp_num o₁ h₁ _ n₂ hz₁]
    dsimp only
    rw [hitungLoop, applyOp_num o₂ h₂ _ n₃ hz₂]
    dsimp only
    rw [hitungLoop]
  · simp [hitung, hitungLoop, applyOp, tambah, kali, kurang, pf] <;> norm_num
  · simp [hitung, hitungLoop, applyOp, tambah, pf] <;> norm_num

/-- Witness for claim C1 at a concrete input with a division: the fold of
6, 3, 2, 1 under /, -, + is computed by the nested spec-side apply. -/
theorem c1_witness :
    hitung [pf 6, pf 3, pf 2, pf 1] ["/", "-", "+"] =
      .ok (.float (pf (applySpec ("+") (applySpec ("-") (applySpec ("/") 6 3) 2) 1))) := by
  exact (c1_left_fold 6 3 2 1 ("/") ("-") ("+")
    (by decide) (by decide) (by decide)
    (fun _ => by norm_num) (fun h => absurd h (by decide)) (fun h => absurd h (by decide))).1

/-- Claim C2: for every dividend, `bagi` on a zero divisor returns the
textual error marker and does not raise; on a nonzero divisor it returns the
exact quotient (floats being modelled as exact rationals); and it returns
the error marker if and only if the divisor is zero. -/
theorem c2_divide (a b : PyFloat) :
    (b.val = 0 → bagi (.float a) b = .ok (.str errDiv)) ∧
    (b.val ≠ 0 → bagi (.float a) b = .ok (.float (pf (a.val / b.val)))) ∧
    (∃ v, bagi (.float a) b = .ok v) ∧
    (bagi (.float a) b = .ok (.str errDiv) ↔ b.val = 0) := by
  by_cases hz : b.val = 0
  · simp [bagi, hz]
  · simp [bagi, hz]

/-- Witness for claim C2 at the concrete divisors 0 and 2. -/
theorem c2_witness :
    bagi (.float (pf 3)) (pf 0) = .ok (.str errDiv) ∧
    bagi (.float (pf 3)) (pf 2) = .ok (.float (pf (3 / 2))) := by
  refine ⟨(c2_divide (pf 3) (pf 0)).1 rfl, ?_⟩
  have h := (c2_divide (pf 3) (pf 2)).2.1 (by norm_num [pf])
  simpa [pf] using h

/-- Counterexample to claim C3 as stated: with operands 1, 0, 1, 1 and
operators /, +, +, the division by zero at the first fold step is not
short-circuited; the next step adds a float to the marker string, raising an
uncaught TypeError, so the run does not end with the error marker as its
displayed result. -/
theorem c3_counterexample :
    hitung [pf 1, pf 0, pf 1, pf 1] ["/", "+", "+"] = .error .typeError ∧
    hitung [pf 1, pf 0, pf 1, pf 1] ["/", "+", "+"] ≠ .ok (.str errDiv) := by
  have h : hitung [pf 1, pf 0, pf 1, pf 1] ["/", "+", "+"] = .error .typeError := by
    simp [hitung, hitungLoop, applyOp, bagi, tambah, pf] <;> norm_num
  exact ⟨h, by rw [h]; simp⟩

/-- Claim C3 (amended): a division by zero at the last fold step makes the
error marker the final result, and a raised exception does skip all
remaining fold steps; but an error marker arising earlier is not
short-circuited: the next fold step applies its operator to the marker
string, which returns the marker again only for a further division by a
zero operand and otherwise raises an uncaught TypeError. -/
theorem c3_amended (h₂ : ℚ) (n₃ n : PyFloat) (s : String) (hz : n₃.val = 0) :
    applyOp ("/") (.float (pf h₂)) n₃ = .ok (.str errDiv) ∧
    applyOp ("/") (.str s) n₃ = .ok (.str errDiv) ∧
    (n.val ≠ 0 → applyOp ("/") (.str s) n = .error .typeError) ∧
    applyOp ("+") (.str s) n = .error .typeError ∧
    applyOp ("-") (.str s) n = .error .typeError ∧
    applyOp ("*") (.str s) n = .error .typeError ∧
    (∀ (op : String) (hcur : PyVal) (m : PyFloat) (ops : List String)
       (ns : List PyFloat) (e : PyExc),
       applyOp op hcur m = .error e →
       hitungLoop hcur (op :: ops) (m :: ns) = .error e) := by
  refine ⟨by simp [applyOp, bagi, hz], by simp [applyOp, bagi, hz], ?_, ?_, ?_, ?_, ?_⟩
  · intro hn; simp [applyOp, bagi, hn]
  · simp [applyOp, tambah]
  · simp [applyOp, kurang]
  · simp [applyOp, kali]
  · intro op hcur m ops ns e he
    rw [hitungLoop, he]

/-- Witness for the amended claim C3 at concrete values. -/
theorem c3_amended_witness :
    applyOp ("/") (.float (pf 15)) (pf 0) = .ok (.str errDiv) ∧
    applyOp ("+") (.str errDiv) (pf 1) = .error .typeError := by
  have h := c3_amended 15 (pf 0) (pf 1) errDiv rfl
  exact ⟨h.1, h.2.2.2.1⟩

/-- Counterexample to claim C4 as stated: the run with operand lines
1, 0, 1, 1 and the valid operator lines /, +, + raises an uncaught
TypeError (the except clause catches only ValueError), so not every run
with four parsing operand lines and valid operator lines completes. -/
theorem c4_counterexample :
    (main ⟨["1", "0", "1", "1", "/", "+", "+"], []⟩).1 = .error .typeError := by
  simp [main, mainBody, readNums, readLine, readOps, readOpLoop, readOpLoopAux, validOps,
    parseFloat, parseFloatChars, trimChars, takeDigits, digitsVal, pf,
    hitung, hitungLoop, applyOp, bagi, tambah] <;> norm_num

/-- Claim C4 (amended): a run with four parsing operand lines and
(eventually) valid operator lines completes normally and prints the
expression and result lines, provided the fold itself returns a value -
that is, provided no zero-divisor error arises before the last fold step
(or every later step is again a division by a zero operand).  Invalid
numeric input never crashes the process (claim C6); a zero divisor at the
first or second fold step followed by any other operation does crash it
with an uncaught TypeError, as the counterexample shows. -/
theorem c4_amended (l₁ l₂ l₃ l₄ : String) (f₁ f₂ f₃ f₄ : PyFloat)
    (h₁ : parseFloat l₁ = some f₁) (h₂ : parseFloat l₂ = some f₂)
    (h₃ : parseFloat l₃ = some f₃) (h₄ : parseFloat l₄ = some f₄)
    (j₀ j₁ j₂ : List String) (o₀ o₁ o₂ : String)
    (hj₀ : ∀ l ∈ j₀, l ∉ validOps) (hj₁ : ∀ l ∈ j₁, l ∉ validOps)
    (hj₂ : ∀ l ∈ j₂, l ∉ validOps)
    (ho₀ : o₀ ∈ validOps) (ho₁ : o₁ ∈ validOps) (ho₂ : o₂ ∈ validOps)
    (v : PyVal) (hv : hitung [f₁, f₂, f₃, f₄] [o₀, o₁, o₂] = .ok v)
    (rest out : List String) :
    main ⟨l₁ :: l₂ :: l₃ :: l₄ :: (j₀ ++ o₀ :: (j₁ ++ o₁ :: (j₂ ++ o₂ :: rest))), out⟩ =
      (.ok (), ⟨rest,
        out ++ [banner] ++ numPrompts 0 4 ++ opOut 0 j₀ ++ opOut 1 j₁ ++ opOut 2 j₂
          ++ [exprLine f₁ f₂ f₃ f₄ o₀ o₁ o₂, "Hasil: " ++ showHasil v]⟩) :=
  main_ok_spec l₁ l₂ l₃ l₄ f₁ f₂ f₃ f₄ h₁ h₂ h₃ h₄ j₀ j₁ j₂ o₀ o₁ o₂
    hj₀ hj₁ hj₂ ho₀ ho₁ ho₂ v hv rest out

/-- Witness for the amended claim C4: a concrete full run, including one
rejected operator line, completes with the expected transcript. -/
theorem c4_amended_witness :
    main ⟨["1", "2", "3", "4", "x", "+", "+", "+"], []⟩ =
      (.ok (), ⟨[], [banner, numPrompt 0, numPrompt 1, numPrompt 2, numPrompt 3,
        opPrompt 0, opWarn, opPrompt 0, opPrompt 1, opPrompt 2,
        exprLine (pf 1) (pf 2) (pf 3) (pf 4) ("+") ("+") ("+"),
        "Hasil: " ++ showHasil (.float (pf 10))]⟩) := by
  have h := c4_amended ("1") ("2") ("3") ("4") (pf 1) (pf 2) (pf 3) (pf 4)
    (by simp [parseFloat, parseFloatChars, trimChars, takeDigits, digitsVal, pf])
    (by simp [parseFloat, parseFloatChars, trimChars, takeDigits, digitsVal, pf] <;> norm_num)
    (by simp [parseFloat, parseFloatChars, trimChars, takeDigits, digitsVal, pf] <;> norm_num)
    (by simp [parseFloat, parseFloatChars, trimChars, takeDigits, digitsVal, pf] <;> norm_num)
    ["x"] [] [] ("+") ("+") ("+")
    (by decide) (by decide) (by decide) (by decide) (by decide) (by decide)
    (.float (pf 10))
    (by simp [hitung, hitungLoop, applyOp, tambah, pf] <;> norm_num)
    [] []
  simpa [numPrompts, opOut] using h

/-- Claim C5: every operator list that the collection phase hands to the
fold consists only of members of the valid symbol set, and the input loop
re-prompts (with a warning) on arbitrarily many invalid lines until a valid
symbol arrives, which is the one appended. -/
theorem c5_operator_invariant (k i : ℕ) (s : IOState) (ops : List String) (s₂ : IOState)
    (h : readOps k i s = (.ok ops, s₂)) :
    (∀ op ∈ ops, op ∈ validOps) ∧
    (∀ (i₂ : ℕ) (junk : List String) (op : String) (rest out : List String),
      (∀ l ∈ junk, l ∉ validOps) → op ∈ validOps →
      readOpLoopAux i₂ (junk ++ op :: rest) out = (.ok op, ⟨rest, out ++ opOut i₂ junk⟩)) :=
  ⟨readOps_mem k i s ops s₂ h,
   fun i₂ junk op rest out hj hop => readOpLoopAux_spec junk i₂ op rest out hj hop⟩

/-- Witness for claim C5 on a concrete input stream containing one invalid
operator line: the collected middle operator is in the valid set, and the
retry loop on the concrete stream skips the invalid line and accepts it. -/
theorem c5_witness :
    ("*") ∈ validOps ∧
    readOpLoopAux 0 (["x"] ++ ("*") :: ["n"]) [] =
      (.ok ("*"), ⟨["n"], [] ++ opOut 0 ["x"]⟩) := by
  have h := c5_operator_invariant 3 0 ⟨["x", "+", "*", "/", "n"], []⟩ ["+", "*", "/"]
    ⟨["n"], [opPrompt 0, opWarn, opPrompt 0, opPrompt 1, opPrompt 2]⟩
    (by simp [readOps, readOpLoop, readOpLoopAux, validOps])
  exact ⟨h.1 ("*") (by decide),
    h.2 0 ["x"] ("*") ["n"] [] (by decide) (h.1 ("*") (by decide))⟩

/-- Claim C6: an operand line that does not parse as a number aborts the
whole evaluation immediately with the invalid-number message: no further
prompts, no expression or result line, no crash (the function returns
normally), and the session loop goes straight on to the repeat prompt. -/
theorem c6_invalid_number (pre : List String) (bad : String) (rest out : List String)
    (hlen : pre.length < 4)
    (hpre : ∀ l ∈ pre, (parseFloat l).isSome = true)
    (hbad : parseFloat bad = none) :
    main ⟨pre ++ bad :: rest, out⟩ =
      (.ok (), ⟨rest, out ++ [banner] ++ numPrompts 0 (pre.length + 1) ++ [errNum]⟩) ∧
    ∀ (fuel : ℕ) (ans : String) (rest₂ : List String), rest = ans :: rest₂ →
      sessionLoop (fuel + 1) ⟨pre ++ bad :: rest, out⟩ =
        (if lowerStr ans ≠ "y" then
          (.ok (), ⟨rest₂,
            out ++ [banner] ++ numPrompts 0 (pre.length + 1) ++ [errNum] ++ [lagiPrompt]⟩)
         else sessionLoop fuel
            ⟨rest₂,
              out ++ [banner] ++ numPrompts 0 (pre.length + 1) ++ [errNum] ++ [lagiPrompt]⟩) := by
  have hm := main_fail_spec pre _ (forall₂_parse pre hpre) bad hbad hlen rest out
  refine ⟨hm, ?_⟩
  intro fuel ans rest₂ hrest
  subst hrest
  rw [sessionLoop, hm]
  dsimp only [readLine]

/-- Witness for claim C6: a concrete run whose second operand line is not
numeric. -/
theorem c6_witness :
    main ⟨["5", "x", "n"], []⟩ =
      (.ok (), ⟨["n"], [banner, numPrompt 0, numPrompt 1, errNum]⟩) := by
  have h := (c6_invalid_number ["5"] ("x") ["n"] [] (by decide)
    (by decide) (by decide)).1
  simpa [numPrompts] using h

/-- Claim C7: after a normal run of `main`, the session loop repeats exactly
when the lowercased answer to the repeat prompt equals y; any other answer
ends the loop, after which the closing message is printed and the program
ends normally. -/
theorem c7_session_repeat (fuel : ℕ) (s s₁ : IOState) (lagi : String) (rest : List String)
    (hmain : main s = (.ok (), s₁)) (hin : s₁.input = lagi :: rest) :
    (lowerStr lagi ≠ "y" →
      sessionLoop (fuel + 1) s = (.ok (), ⟨rest, s₁.output ++ [lagiPrompt]⟩) ∧
      runCalc (fuel + 1) s = (.ok (), ⟨rest, s₁.output ++ [lagiPrompt] ++ [thanks]⟩)) ∧
    (lowerStr lagi = "y" →
      sessionLoop (fuel + 1) s = sessionLoop fuel ⟨rest, s₁.output ++ [lagiPrompt]⟩) := by
  obtain ⟨inp₁, out₁⟩ := s₁
  dsimp only at hin
  subst hin
  constructor
  · intro hy
    have hs : sessionLoop (fuel + 1) s = (.ok (), ⟨rest, out₁ ++ [lagiPrompt]⟩) := by
      rw [sessionLoop, hmain]
      dsimp only [readLine]
      rw [if_pos hy]
    refine ⟨hs, ?_⟩
    rw [runCalc, hs]
  · intro hy
    rw [sessionLoop, hmain]
    dsimp only [readLine]
    rw [if_neg (by simp [hy])]

/-- Witness for claim C7: a concrete full session answering n at the repeat
prompt ends normally with the closing message printed last. -/
theorem c7_witness :
    runCalc 1 ⟨["1", "2", "3", "4", "+", "+", "+", "n"], []⟩ =
      (.ok (), ⟨[], [banner, numPrompt 0, numPrompt 1, numPrompt 2, numPrompt 3,
        opPrompt 0, opPrompt 1, opPrompt 2,
        exprLine (pf 1) (pf 2) (pf 3) (pf 4) ("+") ("+") ("+"),
        "Hasil: " ++ showHasil (.float (pf 10)), lagiPrompt, thanks]⟩) := by
  have hm := main_ok_spec ("1") ("2") ("3") ("4") (pf 1) (pf 2) (pf 3) (pf 4)
    (by simp [parseFloat, parseFloatChars, trimChars, takeDigits, digitsVal, pf])
    (by simp [parseFloat, parseFloatChars, trimChars, takeDigits, digitsVal, pf] <;> norm_num)
    (by simp [parseFloat, parseFloatChars, trimChars, takeDigits, digitsVal, pf] <;> norm_num)
    (by simp [parseFloat, parseFloatChars, trimChars, takeDigits, digitsVal, pf] <;> norm_num)
    [] [] [] ("+") ("+") ("+")
    (by decide) (by decide) (by decide) (by decide) (by decide) (by decide)
    (.float (pf 10))
    (by simp [hitung, hitungLoop, applyOp, tambah, pf] <;> norm_num)
    ["n"] []
  have h := ((c7_session_repeat 0 _ _ ("n") [] hm rfl).1 (by decide)).2
  simpa [numPrompts, opOut] using h

/-- Claim C8: with operands 10, 2, 3, 0 and operators /, *, /, the fold
computes 10/2 = 5, then 5*3 = 15, then 15/0 yields the error marker, and
the final result line of the run shows the error marker rather than a
number. -/
theorem c8_end_to_end :
    applyOp ("/") (.float (pf 10)) (pf 2) = .ok (.float (pf 5)) ∧
    applyOp ("*") (.float (pf 5)) (pf 3) = .ok (.float (pf 15)) ∧
    applyOp ("/") (.float (pf 15)) (pf 0) = .ok (.str errDiv) ∧
    hitung [pf 10, pf 2, pf 3, pf 0] ["/", "*", "/"] = .ok (.str errDiv) ∧
    main ⟨["10", "2", "3", "0", "/", "*", "/"], []⟩ =
      (.ok (), ⟨[], [banner, numPrompt 0, numPrompt 1, numPrompt 2, numPrompt 3,
        opPrompt 0, opPrompt 1, opPrompt 2,
        exprLine (pf 10) (pf 2) (pf 3) (pf 0) ("/") ("*") ("/"),
        "Hasil: " ++ errDiv]⟩) ∧
    (main ⟨["10", "2", "3", "0", "/", "*", "/"], []⟩).2.output.getLast? =
      some ("Hasil: " ++ errDiv) := by
  have hmain : main ⟨["10", "2", "3", "0", "/", "*", "/"], []⟩ =
      (.ok (), ⟨[], [banner, numPrompt 0, numPrompt 1, numPrompt 2, numPrompt 3,
        opPrompt 0, opPrompt 1, opPrompt 2,
        exprLine (pf 10) (pf 2) (pf 3) (pf 0) ("/") ("*") ("/"),
        "Hasil: " ++ errDiv]⟩) := by
    have h := main_ok_spec ("10") ("2") ("3") ("0") (pf 10) (pf 2) (pf 3) (pf 0)
      (by simp [parseFloat, parseFloatChars, trimChars, takeDigits, digitsVal, pf] <;> norm_num)
      (by simp [parseFloat, parseFloatChars, trimChars, takeDigits, digitsVal, pf] <;> norm_num)
      (by simp [parseFloat, parseFloatChars, trimChars, takeDigits, digitsVal, pf] <;> norm_num)
      (by simp [parseFloat, parseFloatChars, trimChars, takeDigits, digitsVal, pf])
      [] [] [] ("/") ("*") ("/")
      (by decide) (by decide) (by decide) (by decide) (by decide) (by decide)
      (.str errDiv)
      (by simp [hitung, hitungLoop, applyOp, bagi, kali, pf] <;> norm_num)
      [] []
    simpa [numPrompts, opOut, showHasil] using h
  refine ⟨?_, ?_, ?_, ?_, hmain, ?_⟩
  · simp [applyOp, bagi, pf] <;> norm_num
  · simp [applyOp, kali, pf] <;> norm_num
  · simp [applyOp, bagi, pf]
  · simp [hitung, hitungLoop, applyOp, bagi, kali, pf] <;> norm_num
  · rw [hmain]
    simp

/-- Claim C9: the zero test of `bagi` is numeric equality on the value, not
a test on the sign or representation of the divisor: dividing any float by
the parsed negative zero -0.0 returns the textual error marker (no quotient
is ever produced for it), and the error branch is taken exactly when the
divisor compares numerically equal to zero. -/
theorem c9_negative_zero (a b : PyFloat) :
    bagi (.float a) ⟨0, true⟩ = .ok (.str errDiv) ∧
    (bagi (.float a) b = .ok (.str errDiv) ↔ b.val = 0) ∧
    parseFloat ("-0.0") = some ⟨0, true⟩ := by
  refine ⟨by simp [bagi], ?_, ?_⟩
  · by_cases hz : b.val = 0 <;> simp [bagi, hz]
  · simp [parseFloat, parseFloatChars, trimChars, takeDigits, digitsVal] <;> norm_num

/-- Witness for claim C9 at the concrete dividend 7. -/
theorem c9_witness : bagi (.float (pf 7)) ⟨0, true⟩ = .ok (.str errDiv) :=
  (c9_negative_zero (pf 7) (pf 0)).1

/-- Claim C10: the program is deterministic - its outcome and output are a
function of the standard-input lines alone.  In this embedding the program
is literally a function of the input lines plus the artificial fuel bound
of the session loop, and any two sufficient fuels give identical results,
so nothing besides the input lines influences the output. -/
theorem c10_deterministic (input : List String) (f₁ f₂ : ℕ)
    (hf₁ : input.length < f₁) (hf₂ : input.length < f₂) :
    program f₁ input = program f₂ input := by
  rw [program, program, runCalc, runCalc,
    sessionLoop_fuel f₁ f₂ ⟨input, []⟩ hf₁ hf₂]

/-- Witness for claim C10: two runs of a concrete session with different
fuel bounds coincide. -/
theorem c10_witness :
    program 9 ["1", "2", "3", "4", "+", "+", "+", "n"] =
      program 42 ["1", "2", "3", "4", "+", "+", "+", "n"] :=
  c10_deterministic ["1", "2", "3", "4", "+", "+", "+", "n"] 9 42 (by decide) (by decide)

end Calculator
